import Mathlib

/-!
Verification of the deadline-notification scheduler of `app.py`.

The embedding models the pieces of `app.py` that the scheduler touches:

* `Task` mirrors the SQLAlchemy model `Task` (`app.py`, class `Task`):
  integer primary key `id`, `title`, optional `description`, a naive local
  `due_date` (modelled as an `Int` count of minutes, so
  `timedelta(days=1)` is `1440` and `timedelta(hours=1)` is `60`),
  a `status` string defaulting to `"Pending"`, an optional `notify_email`,
  and the two notification flags `notified_1day`, `notified_1hour`.
* `Config.defaultTo` mirrors the module-level `DEFAULT_TO` fallback
  recipient.
* The database is a list of rows (`List Task`).  A SQLAlchemy query
  `Task.query.filter(...)` with no `order_by` is modelled as `List.filter`
  on the row list: it returns the matching rows in store order.
* External effects are parameters of the scan (`ScanParams`): whether each
  of the two queries raises (the `try/except` blocks around them), the
  outcome of `send_email` as a function of `(recipient, subject, body)`,
  and whether the final `db.session.commit()` succeeds.  On commit failure
  `db.session.rollback()` discards every staged flag update, so the store
  reverts to its pre-scan state.
* `check_deadlines` returns a `ScanOutcome` bundling the observable
  effects of one scan: the post-scan store, the list of attempted email
  sends in order, the error messages that were printed (as booleans), and
  `ret : Unit` — the Python function falls off the end, returning `None`.
* The `socketio.emit` calls are wrapped in `try/except` and have no effect
  on flags, sends, or the store; they are not modelled.
-/

namespace App

structure Task where
  id : Nat
  title : String
  description : Option String
  due_date : Int
  status : String
  notify_email : Option String
  notified_1day : Bool
  notified_1hour : Bool
deriving DecidableEq, Repr

structure Config where
  defaultTo : String
deriving DecidableEq, Repr

/-- The two reminder kinds of the scheduler: the 1-day and the 1-hour
threshold. -/
inductive Kind where
  | day
  | hour
deriving DecidableEq, Repr

/-- `Task.notify_recipient` from `app.py`: `self.notify_email or DEFAULT_TO`.
Python's `or` falls through to `DEFAULT_TO` when `notify_email` is `None`
or the empty string. -/
def Task.notify_recipient (t : Task) (cfg : Config) : String :=
  match t.notify_email with
  | some e => if e = "" then cfg.defaultTo else e
  | none => cfg.defaultTo

/-- Filter of the 1-day query in `check_deadlines`:
`status == 'Pending' AND due_date <= now + 1 day AND due_date > now AND
notified_1day == False`. -/
def dayPred (now : Int) (t : Task) : Bool :=
  t.status == "Pending" && decide (t.due_date ≤ now + 1440) &&
    decide (now < t.due_date) && !t.notified_1day

/-- Filter of the 1-hour query in `check_deadlines`:
`status == 'Pending' AND due_date <= now + 1 hour AND due_date > now AND
notified_1hour == False`. -/
def hourPred (now : Int) (t : Task) : Bool :=
  t.status == "Pending" && decide (t.due_date ≤ now + 60) &&
    decide (now < t.due_date) && !t.notified_1hour

/-- `Task.query.filter(... day filter ...).all()`: the matching rows in
store order (the query has no `order_by`). -/
def dayQuery (now : Int) (store : List Task) : List Task :=
  store.filter (dayPred now)

/-- `Task.query.filter(... hour filter ...).all()`: the matching rows in
store order (the query has no `order_by`). -/
def hourQuery (now : Int) (store : List Task) : List Task :=
  store.filter (hourPred now)

/-- Subject line composed in the 1-day loop of `check_deadlines`. -/
def daySubject (t : Task) : String :=
  "Reminder: \x27" ++ t.title ++ "\x27 is due in ~1 day"

/-- Subject line composed in the 1-hour loop of `check_deadlines`. -/
def hourSubject (t : Task) : String :=
  "Urgent: \x27" ++ t.title ++ "\x27 is due in ~1 hour"

/-- Body composed in both loops:
`f"Task: {title}\nDue: {due_date}\n\n{description or ''}"`. -/
def reminderBody (t : Task) : String :=
  "Task: " ++ t.title ++ "\nDue: " ++ toString t.due_date ++ "\n\n" ++
    t.description.getD ""

def subjectOf : Kind → Task → String
  | Kind.day => daySubject
  | Kind.hour => hourSubject

/-- Setting the flag of one kind on a row: `task.notified_1day = True`
resp. `task.notified_1hour = True`. -/
def applyFlag : Kind → Task → Task
  | Kind.day, t => { t with notified_1day := true }
  | Kind.hour, t => { t with notified_1hour := true }

/-- Reading the flag of one kind. -/
def flagOf : Kind → Task → Bool
  | Kind.day, t => t.notified_1day
  | Kind.hour, t => t.notified_1hour

/-- Mutating the row object with primary key `i` inside the session:
the row list with the flag of kind `k` set on that row. -/
def setFlag (k : Kind) (store : List Task) (i : Nat) : List Task :=
  store.map (fun u => if u.id == i then applyFlag k u else u)

/-- One attempted send, as observed at the `send_email` boundary:
which row, which reminder kind, which recipient, and whether
`send_email` returned `True`. -/
structure SendRec where
  taskId : Nat
  kind : Kind
  recipient : String
  ok : Bool
deriving DecidableEq, Repr

/-- One `for task in tasks: ...` loop of `check_deadlines` for kind `k`:
skip the task when the recipient is empty, otherwise call `send_email`
and, on success, set the flag on the session's row.  Returns the updated
row list and the send attempts in loop order. -/
def processTasks (cfg : Config) (send : String → String → String → Bool)
    (k : Kind) : List Task → List Task → List Task × List SendRec
  | [], store => (store, [])
  | t :: rest, store =>
    let recipient := t.notify_recipient cfg
    if recipient = "" then
      processTasks cfg send k rest store
    else
      let ok := send recipient (subjectOf k t) (reminderBody t)
      let store2 := if ok then setFlag k store t.id else store
      let r := processTasks cfg send k rest store2
      (r.1, ⟨t.id, k, recipient, ok⟩ :: r.2)

/-- The external outcomes one invocation of `check_deadlines` observes:
whether each query raises (`False` models the `except` branch being
taken), the behaviour of `send_email`, and whether the final
`db.session.commit()` succeeds. -/
structure ScanParams where
  dayQueryOk : Bool
  hourQueryOk : Bool
  send : String → String → String → Bool
  commitOk : Bool

/-- Everything observable about one invocation of `check_deadlines`:
the database rows after the commit/rollback, the email send attempts in
order, the error prints, and the Python return value (`None`). -/
structure ScanOutcome where
  store : List Task
  sends : List SendRec
  dayQueryError : Bool
  hourQueryError : Bool
  commitError : Bool
  ret : Unit
deriving DecidableEq, Repr

/-- The session state staged by one scan before the final commit: the
1-day loop runs on the rows matched by the day query, then the 1-hour
query (which sees the session's staged updates) feeds the 1-hour loop. -/
def stageScan (cfg : Config) (p : ScanParams) (now : Int)
    (store : List Task) : List Task × List SendRec :=
  let tasks_day := if p.dayQueryOk then dayQuery now store else []
  let r1 := processTasks cfg p.send Kind.day tasks_day store
  let tasks_hour := if p.hourQueryOk then hourQuery now r1.1 else []
  let r2 := processTasks cfg p.send Kind.hour tasks_hour r1.1
  (r2.1, r1.2 ++ r2.2)

/-- `check_deadlines` from `app.py`: run both reminder loops, then one
`db.session.commit()`; on commit failure `db.session.rollback()` reverts
every staged flag update, and the function returns `None` either way. -/
def check_deadlines (cfg : Config) (p : ScanParams) (now : Int)
    (store : List Task) : ScanOutcome :=
  let staged := stageScan cfg p now store
  { store := if p.commitOk then staged.1 else store
    sends := staged.2
    dayQueryError := !p.dayQueryOk
    hourQueryError := !p.hourQueryOk
    commitError := !p.commitOk
    ret := () }

/-- A sequence of scheduler ticks: each entry supplies that tick's
external outcomes and its `datetime.now()`.  Returns the final store and
the concatenation of all send attempts. -/
def runScans (cfg : Config) : List (ScanParams × Int) → List Task →
    List Task × List SendRec
  | [], store => (store, [])
  | (p, now) :: rest, store =>
    let o := check_deadlines cfg p now store
    let r := runScans cfg rest o.store
    (r.1, o.sends ++ r.2)

/-- The row with primary key `i`, when present. -/
def findTask (store : List Task) (i : Nat) : Option Task :=
  store.find? (fun t => t.id == i)

/-- Number of successful sends for row `i` and kind `k` in a send log. -/
def countSucc (sends : List SendRec) (i : Nat) (k : Kind) : Nat :=
  (sends.filter (fun r => r.taskId == i && r.kind == k && r.ok)).length

/-! ### Normal forms for the two reminder loops -/

/-- Whether processing task `t` in the loop for kind `k` reaches
`send_email` and that send succeeds. -/
def attemptOk (cfg : Config) (send : String → String → String → Bool)
    (k : Kind) (t : Task) : Bool :=
  !(t.notify_recipient cfg == "") &&
    send (t.notify_recipient cfg) (subjectOf k t) (reminderBody t)

/-- The per-row effect of one loop: the flag of kind `k` is set on row
`u` exactly when some processed task with `u`'s id had a successful
send. -/
def updFun (cfg : Config) (send : String → String → String → Bool)
    (k : Kind) (tasks : List Task) (u : Task) : Task :=
  if tasks.any (fun t => u.id == t.id && attemptOk cfg send k t) then
    applyFlag k u
  else u

/-- The send record produced (or not) for one task of one loop. -/
def mkRec (cfg : Config) (send : String → String → String → Bool)
    (k : Kind) (t : Task) : Option SendRec :=
  if t.notify_recipient cfg = "" then none
  else
    some ⟨t.id, k, t.notify_recipient cfg,
      send (t.notify_recipient cfg) (subjectOf k t) (reminderBody t)⟩

theorem applyFlag_id (k : Kind) (t : Task) : (applyFlag k t).id = t.id := by
  cases k <;> rfl

theorem applyFlag_applyFlag (k : Kind) (t : Task) :
    applyFlag k (applyFlag k t) = applyFlag k t := by
  cases k <;> rfl

theorem attemptOk_of_empty (cfg : Config)
    (send : String → String → String → Bool) (k : Kind) (t : Task)
    (h : t.notify_recipient cfg = "") : attemptOk cfg send k t = false := by
  simp [attemptOk, h]

theorem attemptOk_of_ne (cfg : Config)
    (send : String → String → String → Bool) (k : Kind) (t : Task)
    (h : ¬t.notify_recipient cfg = "") :
    attemptOk cfg send k t =
      send (t.notify_recipient cfg) (subjectOf k t) (reminderBody t) := by
  simp [attemptOk, h]

theorem updFun_cons_skip (cfg : Config)
    (send : String → String → String → Bool) (k : Kind) (t : Task)
    (rest : List Task) (h : attemptOk cfg send k t = false) :
    updFun cfg send k (t :: rest) = updFun cfg send k rest := by
  funext u
  simp [updFun, List.any_cons, h]

theorem processTasks_store (cfg : Config)
    (send : String → String → String → Bool) (k : Kind)
    (tasks store : List Task) :
    (processTasks cfg send k tasks store).1 =
      store.map (updFun cfg send k tasks) := by
  induction tasks generalizing store with
  | nil =>
    have h : updFun cfg send k [] = fun u => u := by
      funext u; simp [updFun]
    rw [processTasks, h, List.map_id']
  | cons t rest ih =>
    by_cases hr : t.notify_recipient cfg = ""
    · rw [processTasks, if_pos hr, ih, updFun_cons_skip cfg send k t rest
        (attemptOk_of_empty cfg send k t hr)]
    · rw [processTasks, if_neg hr]
      have ha : attemptOk cfg send k t =
          send (t.notify_recipient cfg) (subjectOf k t) (reminderBody t) :=
        attemptOk_of_ne cfg send k t hr
      rcases hok : send (t.notify_recipient cfg) (subjectOf k t)
          (reminderBody t) with _ | _
      · rw [hok] at ha
        simp only [hok]
        rw [if_neg Bool.false_ne_true, ih, updFun_cons_skip cfg send k t rest ha]
      · rw [hok] at ha
        simp only [hok]
        rw [if_pos trivial, ih, setFlag, List.map_map]
        have h : (updFun cfg send k rest ∘ fun u =>
            if u.id == t.id then applyFlag k u else u) =
            updFun cfg send k (t :: rest) := by
          funext u
          rcases hid : u.id == t.id with _ | _
          · have h1 : (if u.id == t.id then applyFlag k u else u) = u := by
              rw [hid]; rfl
            have h2 : ((u.id == t.id && attemptOk cfg send k t) ||
                rest.any (fun t2 => u.id == t2.id && attemptOk cfg send k t2))
                = rest.any (fun t2 => u.id == t2.id && attemptOk cfg send k t2)
                := by rw [hid]; rfl
            simp only [Function.comp_apply, h1, updFun, List.any_cons, h2]
          · have h1 : (if u.id == t.id then applyFlag k u else u) =
                applyFlag k u := by rw [hid]; rfl
            have h2 : ((u.id == t.id && attemptOk cfg send k t) ||
                rest.any (fun t2 => u.id == t2.id && attemptOk cfg send k t2))
                = true := by rw [hid, ha]; rfl
            simp only [Function.comp_apply, h1, updFun, List.any_cons, h2,
              if_true]
            have h3 : (fun t2 =>
                (applyFlag k u).id == t2.id && attemptOk cfg send k t2) =
                (fun t2 => u.id == t2.id && attemptOk cfg send k t2) := by
              funext t2; rw [applyFlag_id]
            rw [h3]
            rcases hrest : rest.any
                (fun t2 => u.id == t2.id && attemptOk cfg send k t2)
                with _ | _
            · rfl
            · simp only [if_true, applyFlag_applyFlag]
        rw [h]

theorem applyFlag_title (k : Kind) (t : Task) :
    (applyFlag k t).title = t.title := by cases k <;> rfl

theorem applyFlag_description (k : Kind) (t : Task) :
    (applyFlag k t).description = t.description := by cases k <;> rfl

theorem applyFlag_due_date (k : Kind) (t : Task) :
    (applyFlag k t).due_date = t.due_date := by cases k <;> rfl

theorem applyFlag_status (k : Kind) (t : Task) :
    (applyFlag k t).status = t.status := by cases k <;> rfl

theorem applyFlag_notify_email (k : Kind) (t : Task) :
    (applyFlag k t).notify_email = t.notify_email := by cases k <;> rfl

theorem applyFlag_recipient (cfg : Config) (k : Kind) (t : Task) :
    (applyFlag k t).notify_recipient cfg = t.notify_recipient cfg := by
  cases k <;> rfl

theorem applyFlag_flagOf_ne {k k' : Kind} (h : k ≠ k') (t : Task) :
    flagOf k (applyFlag k' t) = flagOf k t := by
  cases k <;> cases k' <;> first | rfl | exact absurd rfl h

theorem applyFlag_flagOf_self (k : Kind) (t : Task) :
    flagOf k (applyFlag k t) = true := by cases k <;> rfl

theorem applyFlag_flagOf_mono {k : Kind} {t : Task} (k' : Kind)
    (h : flagOf k t = true) : flagOf k (applyFlag k' t) = true := by
  cases k <;> cases k' <;> first | rfl | exact h

theorem updFun_eq_or (cfg : Config) (send : String → String → String → Bool)
    (k : Kind) (ts : List Task) (u : Task) :
    updFun cfg send k ts u = u ∨ updFun cfg send k ts u = applyFlag k u := by
  rcases h : ts.any (fun t => u.id == t.id && attemptOk cfg send k t)
    with _ | _
  · left; simp [updFun, h]
  · right; simp [updFun, h]

theorem updFun_id (cfg : Config) (send : String → String → String → Bool)
    (k : Kind) (ts : List Task) (u : Task) :
    (updFun cfg send k ts u).id = u.id := by
  rcases updFun_eq_or cfg send k ts u with h | h
  · rw [h]
  · rw [h, applyFlag_id]

theorem updFun_flagOf_ne (cfg : Config)
    (send : String → String → String → Bool) (k k' : Kind) (h : k ≠ k')
    (ts : List Task) (u : Task) :
    flagOf k (updFun cfg send k' ts u) = flagOf k u := by
  rcases updFun_eq_or cfg send k' ts u with h2 | h2
  · rw [h2]
  · rw [h2, applyFlag_flagOf_ne h]

theorem updFun_flagOf_mono (cfg : Config)
    (send : String → String → String → Bool) {k : Kind} (k' : Kind)
    (ts : List Task) {u : Task} (h : flagOf k u = true) :
    flagOf k (updFun cfg send k' ts u) = true := by
  rcases updFun_eq_or cfg send k' ts u with h2 | h2
  · rw [h2]; exact h
  · rw [h2]; exact applyFlag_flagOf_mono k' h

theorem mkRec_some (cfg : Config) (send : String → String → String → Bool)
    (k : Kind) (t : Task) (r : SendRec) (h : mkRec cfg send k t = some r) :
    r.taskId = t.id ∧ r.kind = k ∧ r.recipient = t.notify_recipient cfg ∧
      r.ok = attemptOk cfg send k t := by
  unfold mkRec at h
  by_cases hr : t.notify_recipient cfg = ""
  · rw [if_pos hr] at h; cases h
  · rw [if_neg hr] at h
    have := Option.some.inj h
    subst this
    refine ⟨rfl, rfl, rfl, ?_⟩
    rw [attemptOk_of_ne cfg send k t hr]

theorem findTask_map (g : Task → Task) (hg : ∀ u, (g u).id = u.id)
    (store : List Task) (i : Nat) :
    findTask (store.map g) i = (findTask store i).map g := by
  unfold findTask
  rw [List.find?_map]
  have h : ((fun t => t.id == i) ∘ g) = (fun t : Task => t.id == i) := by
    funext t
    simp only [Function.comp_apply, hg]
  rw [h]

theorem findTask_of_mem :
    ∀ (store : List Task), (store.map Task.id).Nodup →
      ∀ u ∈ store, findTask store u.id = some u := by
  intro store
  induction store with
  | nil => intro _ u hu; cases hu
  | cons a l ih =>
    intro hN u hu
    rw [List.map_cons, List.nodup_cons] at hN
    rcases List.mem_cons.1 hu with rfl | hu2
    · unfold findTask
      rw [List.find?_cons_of_pos l (by simp)]
    · have hne : ¬(a.id == u.id) = true := by
        intro h
        exact hN.1 ((beq_iff_eq.1 h) ▸ List.mem_map_of_mem Task.id hu2)
      unfold findTask
      rw [List.find?_cons_of_neg l hne]
      exact ih hN.2 u hu2

theorem eq_of_mem_of_id_eq {store : List Task}
    (hN : (store.map Task.id).Nodup) {t u : Task} (ht : t ∈ store)
    (hu : u ∈ store) (h : t.id = u.id) : t = u :=
  List.inj_on_of_nodup_map hN ht hu h

theorem countP_id_le_one (l : List Task) (hN : (l.map Task.id).Nodup)
    (i : Nat) : l.countP (fun t => t.id == i) ≤ 1 := by
  induction l with
  | nil => simp
  | cons a l ih =>
    rw [List.map_cons, List.nodup_cons] at hN
    rw [List.countP_cons]
    rcases h : (a.id == i) with _ | _
    · simpa using ih hN.2
    · have hz : l.countP (fun t => t.id == i) = 0 := by
        rw [List.countP_eq_zero]
        intro t ht hti
        exact hN.1 ((beq_iff_eq.1 h) ▸ (beq_iff_eq.1 hti) ▸
          List.mem_map_of_mem Task.id ht)
      rw [hz]
      simp

theorem countSucc_append (A B : List SendRec) (i : Nat) (k : Kind) :
    countSucc (A ++ B) i k = countSucc A i k + countSucc B i k := by
  simp [countSucc, List.filter_append]

theorem countSucc_kind_ne (cfg : Config)
    (send : String → String → String → Bool) (k k' : Kind) (h : k' ≠ k)
    (tasks : List Task) (i : Nat) :
    countSucc (tasks.filterMap (mkRec cfg send k)) i k' = 0 := by
  unfold countSucc
  rw [List.length_eq_zero, List.filter_eq_nil_iff]
  intro r hr
  rcases List.mem_filterMap.1 hr with ⟨t, _, hmk⟩
  have hk : r.kind = k := (mkRec_some cfg send k t r hmk).2.1
  have hkk : (r.kind == k') = false := by
    rw [hk]
    exact beq_eq_false_iff_ne.2 (Ne.symm h)
  simp [hkk]

theorem countSucc_filterMap_le (cfg : Config)
    (send : String → String → String → Bool) (k : Kind) (tasks : List Task)
    (i : Nat) :
    countSucc (tasks.filterMap (mkRec cfg send k)) i k ≤
      tasks.countP (fun t => t.id == i) := by
  induction tasks with
  | nil => simp [countSucc]
  | cons t rest ih =>
    rw [List.filterMap_cons, List.countP_cons]
    rcases hmk : mkRec cfg send k t with _ | r
    · exact le_trans ih (Nat.le_add_right _ _)
    · unfold countSucc
      rw [List.filter_cons]
      rcases hp : (r.taskId == i && r.kind == k && r.ok) with _ | _
      · rw [if_neg Bool.false_ne_true]
        exact le_trans ih (Nat.le_add_right _ _)
      · rw [if_pos rfl]
        simp only [List.length_cons]
        have hti : (t.id == i) = true := by
          have h1 : (r.taskId == i) = true := by
            rcases Bool.and_eq_true_iff.1 (Bool.and_eq_true_iff.1 hp).1
              with ⟨h1, _⟩
            exact h1
          rw [← (mkRec_some cfg send k t r hmk).1]
          exact h1
        rw [hti, if_pos rfl]
        exact Nat.add_le_add ih (le_refl 1)

theorem processTasks_sends (cfg : Config)
    (send : String → String → String → Bool) (k : Kind)
    (tasks store : List Task) :
    (processTasks cfg send k tasks store).2 =
      tasks.filterMap (mkRec cfg send k) := by
  induction tasks generalizing store with
  | nil => simp [processTasks]
  | cons t rest ih =>
    by_cases hr : t.notify_recipient cfg = ""
    · rw [processTasks, if_pos hr, ih, List.filterMap_cons]
      simp [mkRec, hr]
    · rw [processTasks, if_neg hr]
      simp only []
      rw [ih, List.filterMap_cons]
      simp [mkRec, hr]

/-! ### Scan-level normal forms -/

/-- The rows fed to the 1-day loop: the day query result, or the empty
list when the query raised. -/
def dayBatch (p : ScanParams) (now : Int) (store : List Task) : List Task :=
  if p.dayQueryOk then dayQuery now store else []

/-- Session state after the 1-day loop. -/
def sessionDay (cfg : Config) (p : ScanParams) (now : Int)
    (store : List Task) : List Task :=
  (processTasks cfg p.send Kind.day (dayBatch p now store) store).1

/-- The rows fed to the 1-hour loop: the hour query runs against the
session state left by the 1-day loop. -/
def hourBatch (cfg : Config) (p : ScanParams) (now : Int)
    (store : List Task) : List Task :=
  if p.hourQueryOk then hourQuery now (sessionDay cfg p now store) else []

/-- Session state after both loops, as staged for the final commit. -/
def sessionHour (cfg : Config) (p : ScanParams) (now : Int)
    (store : List Task) : List Task :=
  (processTasks cfg p.send Kind.hour (hourBatch cfg p now store)
    (sessionDay cfg p now store)).1

theorem stageScan_fst (cfg : Config) (p : ScanParams) (now : Int)
    (store : List Task) :
    (stageScan cfg p now store).1 = sessionHour cfg p now store := rfl

theorem stageScan_snd (cfg : Config) (p : ScanParams) (now : Int)
    (store : List Task) :
    (stageScan cfg p now store).2 =
      (dayBatch p now store).filterMap (mkRec cfg p.send Kind.day) ++
        (hourBatch cfg p now store).filterMap (mkRec cfg p.send Kind.hour) := by
  show (processTasks cfg p.send Kind.day (dayBatch p now store) store).2 ++
      (processTasks cfg p.send Kind.hour (hourBatch cfg p now store)
        (sessionDay cfg p now store)).2 = _
  rw [processTasks_sends, processTasks_sends]

theorem scan_sends (cfg : Config) (p : ScanParams) (now : Int)
    (store : List Task) :
    (check_deadlines cfg p now store).sends =
      (dayBatch p now store).filterMap (mkRec cfg p.send Kind.day) ++
        (hourBatch cfg p now store).filterMap (mkRec cfg p.send Kind.hour) :=
  stageScan_snd cfg p now store

theorem scan_store (cfg : Config) (p : ScanParams) (now : Int)
    (store : List Task) :
    (check_deadlines cfg p now store).store =
      if p.commitOk then sessionHour cfg p now store else store := rfl

theorem sessionDay_map (cfg : Config) (p : ScanParams) (now : Int)
    (store : List Task) :
    sessionDay cfg p now store =
      store.map (updFun cfg p.send Kind.day (dayBatch p now store)) :=
  processTasks_store cfg p.send Kind.day (dayBatch p now store) store

theorem sessionHour_map (cfg : Config) (p : ScanParams) (now : Int)
    (store : List Task) :
    sessionHour cfg p now store =
      (sessionDay cfg p now store).map
        (updFun cfg p.send Kind.hour (hourBatch cfg p now store)) :=
  processTasks_store cfg p.send Kind.hour (hourBatch cfg p now store) _

theorem map_ids_map_updFun (cfg : Config)
    (send : String → String → String → Bool) (k : Kind) (ts store : List Task) :
    (store.map (updFun cfg send k ts)).map Task.id = store.map Task.id := by
  rw [List.map_map]
  have h : (Task.id ∘ updFun cfg send k ts) = Task.id :=
    funext (updFun_id cfg send k ts)
  rw [h]

theorem sessionDay_ids (cfg : Config) (p : ScanParams) (now : Int)
    (store : List Task) :
    (sessionDay cfg p now store).map Task.id = store.map Task.id := by
  rw [sessionDay_map, map_ids_map_updFun]

theorem sessionHour_ids (cfg : Config) (p : ScanParams) (now : Int)
    (store : List Task) :
    (sessionHour cfg p now store).map Task.id = store.map Task.id := by
  rw [sessionHour_map, map_ids_map_updFun, sessionDay_ids]

theorem scan_store_ids (cfg : Config) (p : ScanParams) (now : Int)
    (store : List Task) :
    (check_deadlines cfg p now store).store.map Task.id =
      store.map Task.id := by
  rw [scan_store]
  rcases p.commitOk with _ | _
  · rw [if_neg Bool.false_ne_true]
  · rw [if_pos rfl, sessionHour_ids]

theorem dayPred_iff (now : Int) (t : Task) :
    dayPred now t = true ↔ t.status = "Pending" ∧ t.due_date ≤ now + 1440 ∧
      now < t.due_date ∧ t.notified_1day = false := by
  simp [dayPred, Bool.and_eq_true, and_assoc, Bool.not_eq_true']

theorem hourPred_iff (now : Int) (t : Task) :
    hourPred now t = true ↔ t.status = "Pending" ∧ t.due_date ≤ now + 60 ∧
      now < t.due_date ∧ t.notified_1hour = false := by
  simp [hourPred, Bool.and_eq_true, and_assoc, Bool.not_eq_true']

theorem dayPred_flag {now : Int} {t : Task} (h : dayPred now t = true) :
    t.notified_1day = false := ((dayPred_iff now t).1 h).2.2.2

theorem hourPred_flag {now : Int} {t : Task} (h : hourPred now t = true) :
    t.notified_1hour = false := ((hourPred_iff now t).1 h).2.2.2

theorem dayBatch_sublist (p : ScanParams) (now : Int) (store : List Task) :
    (dayBatch p now store).Sublist store := by
  unfold dayBatch
  rcases p.dayQueryOk with _ | _
  · rw [if_neg Bool.false_ne_true]; exact List.nil_sublist store
  · rw [if_pos rfl]; exact List.filter_sublist store

theorem hourBatch_sublist (cfg : Config) (p : ScanParams) (now : Int)
    (store : List Task) :
    (hourBatch cfg p now store).Sublist (sessionDay cfg p now store) := by
  unfold hourBatch
  rcases p.hourQueryOk with _ | _
  · rw [if_neg Bool.false_ne_true]; exact List.nil_sublist _
  · rw [if_pos rfl]; exact List.filter_sublist _

theorem nodup_ids_of_sublist {l store : List Task} (h : l.Sublist store)
    (hN : (store.map Task.id).Nodup) : (l.map Task.id).Nodup :=
  List.Nodup.sublist (h.map Task.id) hN

theorem countSucc_pos {L : List SendRec} {i : Nat} {k : Kind}
    (h : 0 < countSucc L i k) :
    ∃ r ∈ L, r.taskId = i ∧ r.kind = k ∧ r.ok = true := by
  unfold countSucc at h
  rcases List.exists_mem_of_ne_nil
      (L.filter (fun r => r.taskId == i && r.kind == k && r.ok))
      (by intro hnil; rw [hnil] at h; exact Nat.lt_irrefl 0 h)
    with ⟨r, hr⟩
  rcases List.mem_filter.1 hr with ⟨hmem, hpred⟩
  rcases Bool.and_eq_true_iff.1 hpred with ⟨h12, h3⟩
  rcases Bool.and_eq_true_iff.1 h12 with ⟨h1, h2⟩
  exact ⟨r, hmem, beq_iff_eq.1 h1, beq_iff_eq.1 h2, h3⟩

/-- The row with primary key `i` exists and carries the flag of kind `k`. -/
def flagTrue (store : List Task) (i : Nat) (k : Kind) : Prop :=
  ∃ u, findTask store i = some u ∧ flagOf k u = true

theorem findTask_mem_id {store : List Task} {i : Nat} {u : Task}
    (h : findTask store i = some u) : u ∈ store ∧ u.id = i := by
  unfold findTask at h
  have hp := List.find?_some h
  exact ⟨List.mem_of_find?_eq_some h, beq_iff_eq.1 hp⟩

theorem findTask_sessionDay (cfg : Config) (p : ScanParams) (now : Int)
    (store : List Task) (i : Nat) :
    findTask (sessionDay cfg p now store) i =
      (findTask store i).map
        (updFun cfg p.send Kind.day (dayBatch p now store)) := by
  rw [sessionDay_map]
  exact findTask_map _ (updFun_id cfg p.send Kind.day (dayBatch p now store))
    store i

theorem findTask_sessionHour (cfg : Config) (p : ScanParams) (now : Int)
    (store : List Task) (i : Nat) :
    findTask (sessionHour cfg p now store) i =
      (findTask (sessionDay cfg p now store) i).map
        (updFun cfg p.send Kind.hour (hourBatch cfg p now store)) := by
  rw [sessionHour_map]
  exact findTask_map _
    (updFun_id cfg p.send Kind.hour (hourBatch cfg p now store)) _ i

theorem updFun_flag_of_attempt (cfg : Config)
    (send : String → String → String → Bool) (k : Kind) (ts : List Task)
    {t : Task} (ht : t ∈ ts) (ha : attemptOk cfg send k t = true) :
    flagOf k (updFun cfg send k ts t) = true := by
  have hany : ts.any (fun t2 => t.id == t2.id && attemptOk cfg send k t2)
      = true :=
    List.any_eq_true.2 ⟨t, ht, by simp [ha]⟩
  unfold updFun
  rw [hany, if_pos rfl]
  exact applyFlag_flagOf_self k t

theorem scan_countSucc_le_one (cfg : Config) (p : ScanParams) (now : Int)
    (store : List Task) (i : Nat) (k : Kind)
    (hN : (store.map Task.id).Nodup) :
    countSucc (check_deadlines cfg p now store).sends i k ≤ 1 := by
  rw [scan_sends, countSucc_append]
  cases k with
  | day =>
    rw [countSucc_kind_ne cfg p.send Kind.hour Kind.day (by decide) _ i]
    have hday := countSucc_filterMap_le cfg p.send Kind.day
      (dayBatch p now store) i
    have hle := countP_id_le_one (dayBatch p now store)
      (nodup_ids_of_sublist (dayBatch_sublist p now store) hN) i
    omega
  | hour =>
    rw [countSucc_kind_ne cfg p.send Kind.day Kind.hour (by decide) _ i]
    have hhour := countSucc_filterMap_le cfg p.send Kind.hour
      (hourBatch cfg p now store) i
    have hN1 : ((sessionDay cfg p now store).map Task.id).Nodup := by
      rw [sessionDay_ids]; exact hN
    have hle := countP_id_le_one (hourBatch cfg p now store)
      (nodup_ids_of_sublist (hourBatch_sublist cfg p now store) hN1) i
    omega

theorem scan_pos_flag (cfg : Config) (p : ScanParams) (now : Int)
    (store : List Task) (i : Nat) (k : Kind)
    (hN : (store.map Task.id).Nodup) (hc : p.commitOk = true)
    (h : 0 < countSucc (check_deadlines cfg p now store).sends i k) :
    flagTrue (check_deadlines cfg p now store).store i k := by
  have hst : (check_deadlines cfg p now store).store =
      sessionHour cfg p now store := by
    rw [scan_store, hc, if_pos rfl]
  rw [scan_sends] at h
  rcases countSucc_pos h with ⟨r, hr, hri, hrk, hrok⟩
  rcases List.mem_append.1 hr with hrd | hrh
  · rcases List.mem_filterMap.1 hrd with ⟨t, htB, hmk⟩
    rcases mkRec_some cfg p.send Kind.day t r hmk with ⟨hid, hkind, _, hok⟩
    cases k with
    | hour => rw [hkind] at hrk; cases hrk
    | day =>
      have hti : t.id = i := hid ▸ hri
      have ha : attemptOk cfg p.send Kind.day t = true := by
        rw [← hok]; exact hrok
      have htS : t ∈ store := (dayBatch_sublist p now store).subset htB
      have hfind : findTask store i = some t := by
        rw [← hti]; exact findTask_of_mem store hN t htS
      refine ⟨updFun cfg p.send Kind.hour (hourBatch cfg p now store)
          (updFun cfg p.send Kind.day (dayBatch p now store) t), ?_, ?_⟩
      · rw [hst, findTask_sessionHour, findTask_sessionDay, hfind,
          Option.map_some', Option.map_some']
      · rw [updFun_flagOf_ne cfg p.send Kind.day Kind.hour (by decide)]
        exact updFun_flag_of_attempt cfg p.send Kind.day _ htB ha
  · rcases List.mem_filterMap.1 hrh with ⟨t, htB, hmk⟩
    rcases mkRec_some cfg p.send Kind.hour t r hmk with ⟨hid, hkind, _, hok⟩
    cases k with
    | day => rw [hkind] at hrk; cases hrk
    | hour =>
      have hti : t.id = i := hid ▸ hri
      have ha : attemptOk cfg p.send Kind.hour t = true := by
        rw [← hok]; exact hrok
      have htS : t ∈ sessionDay cfg p now store :=
        (hourBatch_sublist cfg p now store).subset htB
      have hN1 : ((sessionDay cfg p now store).map Task.id).Nodup := by
        rw [sessionDay_ids]; exact hN
      have hfind : findTask (sessionDay cfg p now store) i = some t := by
        rw [← hti]; exact findTask_of_mem _ hN1 t htS
      refine ⟨updFun cfg p.send Kind.hour (hourBatch cfg p now store) t,
        ?_, ?_⟩
      · rw [hst, findTask_sessionHour, hfind, Option.map_some']
      · exact updFun_flag_of_attempt cfg p.send Kind.hour _ htB ha

theorem scan_flagged (cfg : Config) (p : ScanParams) (now : Int)
    (store : List Task) (i : Nat) (k : Kind)
    (hN : (store.map Task.id).Nodup) (hc : p.commitOk = true)
    (hf : flagTrue store i k) :
    countSucc (check_deadlines cfg p now store).sends i k = 0 ∧
      flagTrue (check_deadlines cfg p now store).store i k := by
  obtain ⟨u, hfind, hflag⟩ := hf
  obtain ⟨hu, hid⟩ := findTask_mem_id hfind
  have hst : (check_deadlines cfg p now store).store =
      sessionHour cfg p now store := by
    rw [scan_store, hc, if_pos rfl]
  constructor
  · rw [scan_sends, countSucc_append]
    cases k with
    | day =>
      rw [countSucc_kind_ne cfg p.send Kind.hour Kind.day (by decide) _ i]
      have hcp : (dayBatch p now store).countP (fun t => t.id == i) = 0 := by
        rw [List.countP_eq_zero]
        intro t htB hti
        have htS : t ∈ store := (dayBatch_sublist p now store).subset htB
        have htu : t = u := eq_of_mem_of_id_eq hN htS hu
          (by rw [beq_iff_eq.1 hti, hid])
        have hpred : dayPred now t = true := by
          unfold dayBatch at htB
          rcases hq : p.dayQueryOk with _ | _
          · rw [hq, if_neg Bool.false_ne_true] at htB; cases htB
          · rw [hq, if_pos rfl] at htB
            exact (List.mem_filter.1 htB).2
        have : u.notified_1day = false := htu ▸ dayPred_flag hpred
        rw [show flagOf Kind.day u = u.notified_1day from rfl, this] at hflag
        cases hflag
      have := countSucc_filterMap_le cfg p.send Kind.day
        (dayBatch p now store) i
      omega
    | hour =>
      rw [countSucc_kind_ne cfg p.send Kind.day Kind.hour (by decide) _ i]
      have hN1 : ((sessionDay cfg p now store).map Task.id).Nodup := by
        rw [sessionDay_ids]; exact hN
      have hfind1 : findTask (sessionDay cfg p now store) i =
          some (updFun cfg p.send Kind.day (dayBatch p now store) u) := by
        rw [findTask_sessionDay, hfind, Option.map_some']
      obtain ⟨hu1, hid1⟩ := findTask_mem_id hfind1
      have hcp : (hourBatch cfg p now store).countP (fun t => t.id == i)
          = 0 := by
        rw [List.countP_eq_zero]
        intro t htB hti
        have htS : t ∈ sessionDay cfg p now store :=
          (hourBatch_sublist cfg p now store).subset htB
        have htu : t = updFun cfg p.send Kind.day (dayBatch p now store) u :=
          eq_of_mem_of_id_eq hN1 htS hu1 (by rw [beq_iff_eq.1 hti, hid1])
        have hpred : hourPred now t = true := by
          unfold hourBatch at htB
          rcases hq : p.hourQueryOk with _ | _
          · rw [hq, if_neg Bool.false_ne_true] at htB; cases htB
          · rw [hq, if_pos rfl] at htB
            exact (List.mem_filter.1 htB).2
        have h1 : flagOf Kind.hour t = false := hourPred_flag hpred
        have h2 : flagOf Kind.hour t = true := by
          rw [htu, updFun_flagOf_ne cfg p.send Kind.hour Kind.day (by decide)]
          exact hflag
        rw [h1] at h2
        cases h2
      have := countSucc_filterMap_le cfg p.send Kind.hour
        (hourBatch cfg p now store) i
      omega
  · refine ⟨updFun cfg p.send Kind.hour (hourBatch cfg p now store)
        (updFun cfg p.send Kind.day (dayBatch p now store) u), ?_, ?_⟩
    · rw [hst, findTask_sessionHour, findTask_sessionDay, hfind,
        Option.map_some', Option.map_some']
    · cases k with
      | day =>
        rw [updFun_flagOf_ne cfg p.send Kind.day Kind.hour (by decide)]
        exact updFun_flagOf_mono cfg p.send Kind.day _ hflag
      | hour =>
        apply updFun_flagOf_mono cfg p.send Kind.hour
        rw [updFun_flagOf_ne cfg p.send Kind.hour Kind.day (by decide)]
        exact hflag

theorem runScans_count (cfg : Config) :
    ∀ (scans : List (ScanParams × Int)) (store : List Task) (i : Nat)
      (k : Kind), (store.map Task.id).Nodup →
      (∀ s ∈ scans, s.1.commitOk = true) →
      countSucc (runScans cfg scans store).2 i k ≤ 1 ∧
        (flagTrue store i k →
          countSucc (runScans cfg scans store).2 i k = 0) := by
  intro scans
  induction scans with
  | nil =>
    intro store i k _ _
    exact ⟨by simp [runScans, countSucc], fun _ => by simp [runScans, countSucc]⟩
  | cons s rest ih =>
    intro store i k hN hall
    obtain ⟨p, now⟩ := s
    have hc : p.commitOk = true := hall (p, now) (List.mem_cons_self _ _)
    have hrest : ∀ s ∈ rest, s.1.commitOk = true := fun s hs =>
      hall s (List.mem_cons_of_mem _ hs)
    have hN2 : ((check_deadlines cfg p now store).store.map Task.id).Nodup := by
      rw [scan_store_ids]; exact hN
    obtain ⟨ih1, ih2⟩ :=
      ih (check_deadlines cfg p now store).store i k hN2 hrest
    have hsplit : (runScans cfg ((p, now) :: rest) store).2 =
        (check_deadlines cfg p now store).sends ++
          (runScans cfg rest (check_deadlines cfg p now store).store).2 := rfl
    constructor
    · rw [hsplit, countSucc_append]
      rcases Nat.eq_zero_or_pos
          (countSucc (check_deadlines cfg p now store).sends i k) with h0 | hpos
      · omega
      · have hf := scan_pos_flag cfg p now store i k hN hc hpos
        have hz := ih2 hf
        have hle := scan_countSucc_le_one cfg p now store i k hN
        omega
    · intro hf
      rw [hsplit, countSucc_append]
      obtain ⟨hz1, hf2⟩ := scan_flagged cfg p now store i k hN hc hf
      rw [hz1, ih2 hf2]

theorem updFun_title (cfg : Config) (send : String → String → String → Bool)
    (k : Kind) (ts : List Task) (u : Task) :
    (updFun cfg send k ts u).title = u.title := by
  rcases updFun_eq_or cfg send k ts u with h | h
  · rw [h]
  · rw [h, applyFlag_title]

theorem updFun_description (cfg : Config)
    (send : String → String → String → Bool) (k : Kind) (ts : List Task)
    (u : Task) : (updFun cfg send k ts u).description = u.description := by
  rcases updFun_eq_or cfg send k ts u with h | h
  · rw [h]
  · rw [h, applyFlag_description]

theorem updFun_due_date (cfg : Config)
    (send : String → String → String → Bool) (k : Kind) (ts : List Task)
    (u : Task) : (updFun cfg send k ts u).due_date = u.due_date := by
  rcases updFun_eq_or cfg send k ts u with h | h
  · rw [h]
  · rw [h, applyFlag_due_date]

theorem updFun_status (cfg : Config)
    (send : String → String → String → Bool) (k : Kind) (ts : List Task)
    (u : Task) : (updFun cfg send k ts u).status = u.status := by
  rcases updFun_eq_or cfg send k ts u with h | h
  · rw [h]
  · rw [h, applyFlag_status]

theorem updFun_notify_email (cfg : Config)
    (send : String → String → String → Bool) (k : Kind) (ts : List Task)
    (u : Task) : (updFun cfg send k ts u).notify_email = u.notify_email := by
  rcases updFun_eq_or cfg send k ts u with h | h
  · rw [h]
  · rw [h, applyFlag_notify_email]

theorem updFun_recipient (cfg cfg2 : Config)
    (send : String → String → String → Bool) (k : Kind) (ts : List Task)
    (u : Task) : (updFun cfg send k ts u).notify_recipient cfg2 =
      u.notify_recipient cfg2 := by
  rcases updFun_eq_or cfg send k ts u with h | h
  · rw [h]
  · rw [h, applyFlag_recipient]

theorem applyFlag_subjectOf (k k2 : Kind) (t : Task) :
    subjectOf k2 (applyFlag k t) = subjectOf k2 t := by
  cases k <;> cases k2 <;> rfl

theorem applyFlag_reminderBody (k : Kind) (t : Task) :
    reminderBody (applyFlag k t) = reminderBody t := by
  cases k <;> rfl

theorem attemptOk_updFun (cfg : Config)
    (send : String → String → String → Bool) (k k2 : Kind) (ts : List Task)
    (u : Task) : attemptOk cfg send k2 (updFun cfg send k ts u) =
      attemptOk cfg send k2 u := by
  rcases updFun_eq_or cfg send k ts u with h | h
  · rw [h]
  · rw [h]
    unfold attemptOk
    rw [applyFlag_recipient, applyFlag_subjectOf, applyFlag_reminderBody]

theorem dayPred_applyFlag_hour (now : Int) (u : Task) :
    dayPred now (applyFlag Kind.hour u) = dayPred now u := rfl

theorem hourPred_applyFlag_day (now : Int) (u : Task) :
    hourPred now (applyFlag Kind.day u) = hourPred now u := rfl

theorem dayPred_updFun_hour (cfg : Config)
    (send : String → String → String → Bool) (now : Int) (ts : List Task)
    (u : Task) : dayPred now (updFun cfg send Kind.hour ts u) =
      dayPred now u := by
  rcases updFun_eq_or cfg send Kind.hour ts u with h | h
  · rw [h]
  · rw [h, dayPred_applyFlag_hour]

theorem hourPred_updFun_day (cfg : Config)
    (send : String → String → String → Bool) (now : Int) (ts : List Task)
    (u : Task) : hourPred now (updFun cfg send Kind.day ts u) =
      hourPred now u := by
  rcases updFun_eq_or cfg send Kind.day ts u with h | h
  · rw [h]
  · rw [h, hourPred_applyFlag_day]

theorem updFun_eq_self_of_no (cfg : Config)
    (send : String → String → String → Bool) (k : Kind) (ts : List Task)
    (u : Task) (h : ∀ t ∈ ts, u.id = t.id → attemptOk cfg send k t = false) :
    updFun cfg send k ts u = u := by
  unfold updFun
  rcases hany : ts.any (fun t => u.id == t.id && attemptOk cfg send k t)
    with _ | _
  · rw [if_neg Bool.false_ne_true]
  · rcases List.any_eq_true.1 hany with ⟨t, ht, hpt⟩
    rcases Bool.and_eq_true_iff.1 hpt with ⟨h1, h2⟩
    rw [h t ht (beq_iff_eq.1 h1)] at h2
    cases h2

theorem subjectOf_day : subjectOf Kind.day = daySubject := rfl

theorem subjectOf_hour : subjectOf Kind.hour = hourSubject := rfl

/-! ### Concrete fixtures for witnesses and counterexamples -/

/-- A `send_email` that always succeeds. -/
def sendAll : String → String → String → Bool := fun _ _ _ => true

/-- A `send_email` that always fails. -/
def sendNone : String → String → String → Bool := fun _ _ _ => false

/-- Configuration with an empty `DEFAULT_TO`. -/
def cfg0 : Config := ⟨""⟩

/-- Pending task due in 50 minutes, inside both reminder windows. -/
def taskA : Task := ⟨1, "A", none, 50, "Pending", some "a@x", false, false⟩

/-- Pending task due in 200 minutes, inside the day window only. -/
def taskB : Task := ⟨2, "B", none, 200, "Pending", some "b@x", false, false⟩

/-- Pending task due in 300 minutes, inside the day window only. -/
def taskD : Task := ⟨4, "D", none, 300, "Pending", some "d@x", false, false⟩

/-- Pending task due in 100 minutes, listed before the more urgent one. -/
def taskB8 : Task := ⟨2, "B8", none, 100, "Pending", some "b@x", false, false⟩

/-- Pending task due in 50 minutes, listed after the less urgent one. -/
def taskA8 : Task := ⟨1, "A8", none, 50, "Pending", some "a@x", false, false⟩

/-- Pending task with `due_date = now + 23h` (for `now = 0`). -/
def task23h : Task := ⟨6, "W", none, 1380, "Pending", none, false, false⟩

/-- Pending task already due at `now = 0`. -/
def taskPast : Task := ⟨5, "P", none, 0, "Pending", none, false, false⟩

/-- Scan tick where queries, sends and the commit all succeed. -/
def pAll : ScanParams := ⟨true, true, sendAll, true⟩

/-- Scan tick where everything succeeds except the final commit. -/
def pNoCommit : ScanParams := ⟨true, true, sendAll, false⟩

/-! ### Claims -/

/-- C1: at-most-once on the success path.  Over any sequence of scans with
non-decreasing `now` in which every commit succeeds, a store whose rows
have distinct primary keys produces at most one successful send per
(task id, threshold kind) pair across all scans. -/
theorem at_most_once_on_success_path (cfg : Config)
    (scans : List (ScanParams × Int)) (store : List Task) (i : Nat) (k : Kind)
    (hN : (store.map Task.id).Nodup)
    (hmono : (scans.map Prod.snd).Chain' (fun a b => a ≤ b))
    (hcommit : ∀ s ∈ scans, s.1.commitOk = true) :
    countSucc (runScans cfg scans store).2 i k ≤ 1 :=
  (runScans_count cfg scans store i k hN hcommit).1

/-- Witness for C1: two consecutive all-success scans over a one-task
store send the day reminder exactly once. -/
theorem at_most_once_on_success_path_witness :
    countSucc (runScans cfg0 [(pAll, 0), (pAll, 10)] [taskA]).2 1 Kind.day
      ≤ 1 :=
  at_most_once_on_success_path cfg0 [(pAll, 0), (pAll, 10)] [taskA] 1 Kind.day
    (by decide)
    (by
      rw [show List.map Prod.snd [(pAll, (0 : Int)), (pAll, 10)] = [0, 10]
        from rfl]
      exact List.chain'_pair.2 (by norm_num))
    (by
      intro s hs
      rcases List.mem_cons.1 hs with h | h
      · rw [h]; rfl
      · rw [List.mem_singleton.1 h]; rfl)

/-- C10: frame property.  A scan leaves every row's `id`, `title`,
`description`, `due_date`, `status` and `notify_email` unchanged, and
moves the two notified flags only from `false` to `true`, never back. -/
theorem scan_frame_property (cfg : Config) (p : ScanParams) (now : Int)
    (store : List Task) :
    List.Forall₂ (fun u v => v.id = u.id ∧ v.title = u.title ∧
      v.description = u.description ∧ v.due_date = u.due_date ∧
      v.status = u.status ∧ v.notify_email = u.notify_email ∧
      (u.notified_1day = true → v.notified_1day = true) ∧
      (u.notified_1hour = true → v.notified_1hour = true))
      store (check_deadlines cfg p now store).store := by
  rw [scan_store]
  rcases hc : p.commitOk with _ | _
  · rw [if_neg Bool.false_ne_true]
    exact List.forall₂_same.2
      (fun u _ => ⟨rfl, rfl, rfl, rfl, rfl, rfl, fun h => h, fun h => h⟩)
  · rw [if_pos rfl, sessionHour_map, sessionDay_map, List.map_map,
      List.forall₂_map_right_iff]
    apply List.forall₂_same.2
    intro u _
    simp only [Function.comp_apply]
    refine ⟨?_, ?_, ?_, ?_, ?_, ?_, ?_, ?_⟩
    · rw [updFun_id, updFun_id]
    · rw [updFun_title, updFun_title]
    · rw [updFun_description, updFun_description]
    · rw [updFun_due_date, updFun_due_date]
    · rw [updFun_status, updFun_status]
    · rw [updFun_notify_email, updFun_notify_email]
    · intro h
      have h1 : flagOf Kind.day
          (updFun cfg p.send Kind.day (dayBatch p now store) u) = true :=
        updFun_flagOf_mono cfg p.send Kind.day _ h
      have h2 : flagOf Kind.day
          (updFun cfg p.send Kind.hour (hourBatch cfg p now store)
            (updFun cfg p.send Kind.day (dayBatch p now store) u)) = true := by
        rw [updFun_flagOf_ne cfg p.send Kind.day Kind.hour (by decide)]
        exact h1
      exact h2
    · intro h
      have h1 : flagOf Kind.hour
          (updFun cfg p.send Kind.day (dayBatch p now store) u) = true := by
        rw [updFun_flagOf_ne cfg p.send Kind.hour Kind.day (by decide)]
        exact h
      exact updFun_flagOf_mono cfg p.send Kind.hour _ h1

/-- C6: a pending task due in 50 minutes with both flags false and a
recipient gets, in a single all-success scan, the day reminder first and
the hour reminder second, and ends with both flags true. -/
theorem same_scan_double_reminder :
    check_deadlines cfg0 pAll 0 [taskA] =
      { store := [⟨1, "A", none, 50, "Pending", some "a@x", true, true⟩],
        sends := [⟨1, Kind.day, "a@x", true⟩, ⟨1, Kind.hour, "a@x", true⟩],
        dayQueryError := false, hourQueryError := false,
        commitError := false, ret := () } := by decide

/-- Counterexample for C5: the scan's return value is `None` (here
`Unit`), so two scans with different numbers of day reminders sent return
the same value — the return value carries no counts and no errors. -/
theorem scan_returns_no_summary :
    (check_deadlines cfg0 pAll 0 [taskA]).ret =
      (check_deadlines cfg0 pAll 0 []).ret ∧
    countSucc (check_deadlines cfg0 pAll 0 [taskA]).sends 1 Kind.day ≠
      countSucc (check_deadlines cfg0 pAll 0 []).sends 1 Kind.day :=
  ⟨rfl, by decide⟩

/-- C5 (amended): the scan always completes and returns `None`; query
and commit failures are only recorded in the printed log, never raised. -/
theorem scan_always_completes (cfg : Config) (p : ScanParams) (now : Int)
    (store : List Task) :
    (check_deadlines cfg p now store).ret = () ∧
    (check_deadlines cfg p now store).dayQueryError = !p.dayQueryOk ∧
    (check_deadlines cfg p now store).hourQueryError = !p.hourQueryOk ∧
    (check_deadlines cfg p now store).commitError = !p.commitOk :=
  ⟨rfl, rfl, rfl, rfl⟩

/-- Counterexample for C2: both tasks' sends succeed, yet the single
failed commit rolls back *both* staged flag updates together — flag
persistence is not independent per task. -/
theorem commit_failure_rolls_back_all :
    (check_deadlines cfg0 pNoCommit 0 [taskB, taskD]).sends =
      [⟨2, Kind.day, "b@x", true⟩, ⟨4, Kind.day, "d@x", true⟩] ∧
    (check_deadlines cfg0 pNoCommit 0 [taskB, taskD]).store =
      [taskB, taskD] ∧
    taskB.notified_1day = false ∧ taskD.notified_1day = false := by decide

/-- C2 (amended): all staged flag updates of one scan are persisted by a
single commit — on success all staged updates persist, on failure all are
rolled back together; the sends already made are unaffected by the commit
outcome. -/
theorem flag_persistence_single_commit (cfg : Config) (dq hq : Bool)
    (send : String → String → String → Bool) (c : Bool) (now : Int)
    (store : List Task) :
    (check_deadlines cfg ⟨dq, hq, send, c⟩ now store).store =
      (if c then sessionHour cfg ⟨dq, hq, send, c⟩ now store else store) ∧
    (check_deadlines cfg ⟨dq, hq, send, c⟩ now store).commitError = !c ∧
    (check_deadlines cfg ⟨dq, hq, send, c⟩ now store).sends =
      (check_deadlines cfg ⟨dq, hq, send, true⟩ now store).sends :=
  ⟨scan_store cfg ⟨dq, hq, send, c⟩ now store, rfl, rfl⟩

/-- Counterexample for C8: the due-task query has no ordering clause, so
a store holding a later-due task before an earlier-due one is returned in
store order, not ascending by `due_date`. -/
theorem query_not_sorted_by_due_date :
    dayQuery 0 [taskB8, taskA8] = [taskB8, taskA8] ∧
    ¬ ((dayQuery 0 [taskB8, taskA8]).map Task.due_date).Sorted
      (fun a b => a ≤ b) := by decide

/-- C8 (amended): the due-task queries return the matching rows in store
order (a sublist of the store), and an empty list — not an error — when
nothing matches. -/
theorem query_returns_store_order :
    (∀ (now : Int) (store : List Task), (dayQuery now store).Sublist store ∧
        (hourQuery now store).Sublist store) ∧
    (∀ (now : Int) (store : List Task),
        (∀ t ∈ store, dayPred now t = false) → dayQuery now store = []) ∧
    (∀ (now : Int) (store : List Task),
        (∀ t ∈ store, hourPred now t = false) → hourQuery now store = []) := by
  refine ⟨fun now store =>
    ⟨List.filter_sublist store, List.filter_sublist store⟩, ?_, ?_⟩
  · intro now store h
    exact List.filter_eq_nil_iff.2 (fun t ht => by simp [h t ht])
  · intro now store h
    exact List.filter_eq_nil_iff.2 (fun t ht => by simp [h t ht])

/-- Witness for the amended C8: a store whose only task is already due
yields an empty day query, not an error. -/
theorem query_returns_store_order_witness : dayQuery 0 [taskPast] = [] :=
  query_returns_store_order.2.1 0 [taskPast] (by decide)

/-- C3: each query returns exactly the pending, unflagged tasks due in
`(now, now + window]`; a task due in 23h is day-only, one due in 30m is
in both windows, and one already due is in neither. -/
theorem query_window_correct :
    (∀ (now : Int) (store : List Task) (t : Task),
        t ∈ dayQuery now store ↔ t ∈ store ∧ t.status = "Pending" ∧
          t.due_date ≤ now + 1440 ∧ now < t.due_date ∧
          t.notified_1day = false) ∧
    (∀ (now : Int) (store : List Task) (t : Task),
        t ∈ hourQuery now store ↔ t ∈ store ∧ t.status = "Pending" ∧
          t.due_date ≤ now + 60 ∧ now < t.due_date ∧
          t.notified_1hour = false) ∧
    (∀ (now : Int) (t : Task), t.status = "Pending" →
        t.notified_1day = false → t.notified_1hour = false →
        (t.due_date = now + 1380 →
          dayPred now t = true ∧ hourPred now t = false) ∧
        (t.due_date = now + 30 →
          dayPred now t = true ∧ hourPred now t = true) ∧
        (t.due_date ≤ now →
          dayPred now t = false ∧ hourPred now t = false)) := by
  refine ⟨?_, ?_, ?_⟩
  · intro now store t
    rw [dayQuery, List.mem_filter, dayPred_iff]
  · intro now store t
    rw [hourQuery, List.mem_filter, hourPred_iff]
  · intro now t hp hd hh
    refine ⟨fun hdue => ⟨?_, ?_⟩, fun hdue => ⟨?_, ?_⟩, fun hdue => ⟨?_, ?_⟩⟩
    · exact (dayPred_iff now t).2 ⟨hp, by omega, by omega, hd⟩
    · rcases hq : hourPred now t with _ | _
      · rfl
      · obtain ⟨_, h1, _, _⟩ := (hourPred_iff now t).1 hq
        omega
    · exact (dayPred_iff now t).2 ⟨hp, by omega, by omega, hd⟩
    · exact (hourPred_iff now t).2 ⟨hp, by omega, by omega, hh⟩
    · rcases hq : dayPred now t with _ | _
      · rfl
      · obtain ⟨_, _, h2, _⟩ := (dayPred_iff now t).1 hq
        omega
    · rcases hq : hourPred now t with _ | _
      · rfl
      · obtain ⟨_, _, h2, _⟩ := (hourPred_iff now t).1 hq
        omega

/-- Witness for C3: the 23-hour task is selected by the day filter and
rejected by the hour filter at `now = 0`. -/
theorem query_window_correct_witness :
    dayPred 0 task23h = true ∧ hourPred 0 task23h = false :=
  (query_window_correct.2.2 0 task23h rfl rfl rfl).1 rfl

/-- C4: for a task that a scan processes for a kind (eligible by that
kind's query, recipient non-empty, commit succeeds), the kind's flag
after the scan equals the outcome of `send_email`; after a failed send
the flag is still false and the task is again in that kind's eligible
set at the same `now`. -/
theorem flag_iff_send_success (cfg : Config) (p : ScanParams) (now : Int)
    (store : List Task) (u : Task) (hN : (store.map Task.id).Nodup)
    (hu : u ∈ store) (hr : ¬u.notify_recipient cfg = "")
    (hc : p.commitOk = true) (hdq : p.dayQueryOk = true)
    (hhq : p.hourQueryOk = true) :
    (dayPred now u = true →
      ∃ v, findTask (check_deadlines cfg p now store).store u.id = some v ∧
        v.notified_1day =
          p.send (u.notify_recipient cfg) (daySubject u) (reminderBody u) ∧
        (p.send (u.notify_recipient cfg) (daySubject u) (reminderBody u)
            = false →
          v ∈ dayQuery now (check_deadlines cfg p now store).store)) ∧
    (hourPred now u = true →
      ∃ v, findTask (check_deadlines cfg p now store).store u.id = some v ∧
        v.notified_1hour =
          p.send (u.notify_recipient cfg) (hourSubject u) (reminderBody u) ∧
        (p.send (u.notify_recipient cfg) (hourSubject u) (reminderBody u)
            = false →
          v ∈ hourQuery now (check_deadlines cfg p now store).store)) := by
  have hst : (check_deadlines cfg p now store).store =
      sessionHour cfg p now store := by
    rw [scan_store, hc, if_pos rfl]
  have hfindU : findTask store u.id = some u := findTask_of_mem store hN u hu
  have hfindv : findTask (check_deadlines cfg p now store).store u.id =
      some (updFun cfg p.send Kind.hour (hourBatch cfg p now store)
        (updFun cfg p.send Kind.day (dayBatch p now store) u)) := by
    rw [hst, findTask_sessionHour, findTask_sessionDay, hfindU,
      Option.map_some', Option.map_some']
  have hN1 : ((sessionDay cfg p now store).map Task.id).Nodup := by
    rw [sessionDay_ids]; exact hN
  constructor
  · intro hday
    have huB : u ∈ dayBatch p now store := by
      unfold dayBatch
      rw [hdq, if_pos rfl]
      exact List.mem_filter.2 ⟨hu, hday⟩
    have haOk : attemptOk cfg p.send Kind.day u =
        p.send (u.notify_recipient cfg) (daySubject u) (reminderBody u) := by
      rw [attemptOk_of_ne cfg p.send Kind.day u hr, subjectOf_day]
    rcases hsend : p.send (u.notify_recipient cfg) (daySubject u)
        (reminderBody u) with _ | _
    · have hself : updFun cfg p.send Kind.day (dayBatch p now store) u = u := by
        apply updFun_eq_self_of_no
        intro t ht hid
        have htS : t ∈ store := (dayBatch_sublist p now store).subset ht
        rw [eq_of_mem_of_id_eq hN htS hu hid.symm, haOk, hsend]
      refine ⟨_, hfindv, ?_, ?_⟩
      · rw [hself]
        have h1 : flagOf Kind.day (updFun cfg p.send Kind.hour
            (hourBatch cfg p now store) u) = flagOf Kind.day u :=
          updFun_flagOf_ne cfg p.send Kind.day Kind.hour (by decide) _ u
        rw [show flagOf Kind.day u = u.notified_1day from rfl,
          dayPred_flag hday] at h1
        exact h1
      · intro _
        rw [hself, hst, dayQuery]
        apply List.mem_filter.2
        constructor
        · rw [sessionHour_map]
          exact List.mem_map_of_mem _
            (by rw [sessionDay_map] at hN1 ⊢
                have := List.mem_map_of_mem
                  (updFun cfg p.send Kind.day (dayBatch p now store)) hu
                rw [hself] at this
                exact this)
        · rw [dayPred_updFun_hour]
          exact hday
    · have ha : attemptOk cfg p.send Kind.day u = true := by
        rw [haOk, hsend]
      refine ⟨_, hfindv, ?_, ?_⟩
      · have h1 : flagOf Kind.day
            (updFun cfg p.send Kind.day (dayBatch p now store) u) = true :=
          updFun_flag_of_attempt cfg p.send Kind.day _ huB ha
        have h2 : flagOf Kind.day (updFun cfg p.send Kind.hour
            (hourBatch cfg p now store)
            (updFun cfg p.send Kind.day (dayBatch p now store) u)) = true := by
          rw [updFun_flagOf_ne cfg p.send Kind.day Kind.hour (by decide)]
          exact h1
        exact h2
      · intro hcontra
        cases hcontra
  · intro hhour
    have hu1 : updFun cfg p.send Kind.day (dayBatch p now store) u ∈
        sessionDay cfg p now store := by
      rw [sessionDay_map]
      exact List.mem_map_of_mem _ hu
    have hpred1 : hourPred now
        (updFun cfg p.send Kind.day (dayBatch p now store) u) = true := by
      rw [hourPred_updFun_day]
      exact hhour
    have hu1B : updFun cfg p.send Kind.day (dayBatch p now store) u ∈
        hourBatch cfg p now store := by
      unfold hourBatch
      rw [hhq, if_pos rfl]
      exact List.mem_filter.2 ⟨hu1, hpred1⟩
    have haOk : attemptOk cfg p.send Kind.hour u =
        p.send (u.notify_recipient cfg) (hourSubject u) (reminderBody u) := by
      rw [attemptOk_of_ne cfg p.send Kind.hour u hr, subjectOf_hour]
    have ha1 : attemptOk cfg p.send Kind.hour
        (updFun cfg p.send Kind.day (dayBatch p now store) u) =
        attemptOk cfg p.send Kind.hour u :=
      attemptOk_updFun cfg p.send Kind.day Kind.hour _ u
    rcases hsend : p.send (u.notify_recipient cfg) (hourSubject u)
        (reminderBody u) with _ | _
    · have hselfH : updFun cfg p.send Kind.hour (hourBatch cfg p now store)
          (updFun cfg p.send Kind.day (dayBatch p now store) u) =
          updFun cfg p.send Kind.day (dayBatch p now store) u := by
        apply updFun_eq_self_of_no
        intro t ht hid
        have htS : t ∈ sessionDay cfg p now store :=
          (hourBatch_sublist cfg p now store).subset ht
        rw [eq_of_mem_of_id_eq hN1 htS hu1
          (by rw [← hid, updFun_id]), ha1, haOk, hsend]
      refine ⟨_, hfindv, ?_, ?_⟩
      · rw [hselfH]
        have h1 : flagOf Kind.hour
            (updFun cfg p.send Kind.day (dayBatch p now store) u) =
            flagOf Kind.hour u :=
          updFun_flagOf_ne cfg p.send Kind.hour Kind.day (by decide) _ u
        rw [show flagOf Kind.hour u = u.notified_1hour from rfl,
          hourPred_flag hhour] at h1
        exact h1
      · intro _
        rw [hst, hourQuery]
        apply List.mem_filter.2
        constructor
        · rw [sessionHour_map]
          exact List.mem_map_of_mem _ hu1
        · rw [hselfH, hourPred_updFun_day]
          exact hhour
    · have ha : attemptOk cfg p.send Kind.hour
          (updFun cfg p.send Kind.day (dayBatch p now store) u) = true := by
        rw [ha1, haOk, hsend]
      refine ⟨_, hfindv, ?_, ?_⟩
      · exact updFun_flag_of_attempt cfg p.send Kind.hour _ hu1B ha
      · intro hcontra
        cases hcontra

/-- Witness for C4: the 50-minute task with recipient set, under an
always-succeeding send, ends the scan day-flagged. -/
theorem flag_iff_send_success_witness :
    ∃ v, findTask (check_deadlines cfg0 pAll 0 [taskA]).store taskA.id =
        some v ∧
      v.notified_1day = pAll.send (taskA.notify_recipient cfg0)
        (daySubject taskA) (reminderBody taskA) ∧
      (pAll.send (taskA.notify_recipient cfg0) (daySubject taskA)
          (reminderBody taskA) = false →
        v ∈ dayQuery 0 (check_deadlines cfg0 pAll 0 [taskA]).store) :=
  (flag_iff_send_success cfg0 pAll 0 [taskA] taskA (by decide) (by decide)
    (by decide) rfl rfl rfl).1 (by decide)

theorem recipient_empty_of {cfg : Config} {u : Task}
    (hd : cfg.defaultTo = "")
    (he : u.notify_email = none ∨ u.notify_email = some "") :
    u.notify_recipient cfg = "" := by
  rcases he with h | h <;> simp [Task.notify_recipient, h, hd]

theorem scan_skip_empty_recipient (cfg : Config) (p : ScanParams)
    (now : Int) (store : List Task) (u : Task)
    (hN : (store.map Task.id).Nodup) (hu : u ∈ store)
    (hre : u.notify_recipient cfg = "") :
    (∀ r ∈ (check_deadlines cfg p now store).sends, r.taskId ≠ u.id) ∧
    findTask (check_deadlines cfg p now store).store u.id = some u := by
  have hN1 : ((sessionDay cfg p now store).map Task.id).Nodup := by
    rw [sessionDay_ids]; exact hN
  have hgD : updFun cfg p.send Kind.day (dayBatch p now store) u = u := by
    apply updFun_eq_self_of_no
    intro t ht hid
    have htS : t ∈ store := (dayBatch_sublist p now store).subset ht
    rw [eq_of_mem_of_id_eq hN htS hu hid.symm]
    exact attemptOk_of_empty cfg p.send Kind.day u hre
  have hu1 : u ∈ sessionDay cfg p now store := by
    rw [sessionDay_map]
    have := List.mem_map_of_mem
      (updFun cfg p.send Kind.day (dayBatch p now store)) hu
    rw [hgD] at this
    exact this
  have hgH : updFun cfg p.send Kind.hour (hourBatch cfg p now store) u = u := by
    apply updFun_eq_self_of_no
    intro t ht hid
    have htS : t ∈ sessionDay cfg p now store :=
      (hourBatch_sublist cfg p now store).subset ht
    rw [eq_of_mem_of_id_eq hN1 htS hu1 hid.symm]
    exact attemptOk_of_empty cfg p.send Kind.hour u hre
  constructor
  · intro r hr hid
    rw [scan_sends] at hr
    rcases List.mem_append.1 hr with h | h
    · rcases List.mem_filterMap.1 h with ⟨t, htB, hmk⟩
      have htS : t ∈ store := (dayBatch_sublist p now store).subset htB
      have hidr : r.taskId = t.id :=
        (mkRec_some cfg p.send Kind.day t r hmk).1
      rw [eq_of_mem_of_id_eq hN htS hu (by rw [← hidr, hid])] at hmk
      unfold mkRec at hmk
      rw [if_pos hre] at hmk
      cases hmk
    · rcases List.mem_filterMap.1 h with ⟨t, htB, hmk⟩
      have htS : t ∈ sessionDay cfg p now store :=
        (hourBatch_sublist cfg p now store).subset htB
      have hidr : r.taskId = t.id :=
        (mkRec_some cfg p.send Kind.hour t r hmk).1
      rw [eq_of_mem_of_id_eq hN1 htS hu1 (by rw [← hidr, hid])] at hmk
      unfold mkRec at hmk
      rw [if_pos hre] at hmk
      cases hmk
  · rw [scan_store]
    rcases p.commitOk with _ | _
    · rw [if_neg Bool.false_ne_true]
      exact findTask_of_mem store hN u hu
    · rw [if_pos rfl, findTask_sessionHour, findTask_sessionDay,
        findTask_of_mem store hN u hu, Option.map_some', Option.map_some',
        hgD, hgH]

theorem runScans_skip_empty_recipient (cfg : Config) :
    ∀ (scans : List (ScanParams × Int)) (store : List Task) (u : Task),
      (store.map Task.id).Nodup → u ∈ store →
      u.notify_recipient cfg = "" →
      (∀ r ∈ (runScans cfg scans store).2, r.taskId ≠ u.id) ∧
      findTask (runScans cfg scans store).1 u.id = some u := by
  intro scans
  induction scans with
  | nil =>
    intro store u hN hu _
    exact ⟨fun r hr => absurd hr (List.not_mem_nil r),
      findTask_of_mem store hN u hu⟩
  | cons s rest ih =>
    intro store u hN hu hre
    obtain ⟨p, now⟩ := s
    obtain ⟨h1, h2⟩ := scan_skip_empty_recipient cfg p now store u hN hu hre
    have hN2 : ((check_deadlines cfg p now store).store.map Task.id).Nodup := by
      rw [scan_store_ids]; exact hN
    have hu2 : u ∈ (check_deadlines cfg p now store).store :=
      (findTask_mem_id h2).1
    obtain ⟨ih1, ih2⟩ :=
      ih (check_deadlines cfg p now store).store u hN2 hu2 hre
    have hsplit : (runScans cfg ((p, now) :: rest) store).2 =
        (check_deadlines cfg p now store).sends ++
          (runScans cfg rest (check_deadlines cfg p now store).store).2 := rfl
    constructor
    · intro r hr
      rw [hsplit] at hr
      rcases List.mem_append.1 hr with h | h
      · exact h1 r h
      · exact ih1 r h
    · have hfst : (runScans cfg ((p, now) :: rest) store).1 =
          (runScans cfg rest (check_deadlines cfg p now store).store).1 := rfl
      rw [hfst]
      exact ih2

/-- C7: a task whose `notify_email` is absent or empty, under an empty
configured default recipient, is never the subject of any send attempt
and its stored row (flags included) is unchanged across any number of
scans. -/
theorem missing_recipient_never_notified (cfg : Config)
    (scans : List (ScanParams × Int)) (store : List Task) (u : Task)
    (hd : cfg.defaultTo = "")
    (he : u.notify_email = none ∨ u.notify_email = some "")
    (hN : (store.map Task.id).Nodup) (hu : u ∈ store) :
    (∀ r ∈ (runScans cfg scans store).2, r.taskId ≠ u.id) ∧
    findTask (runScans cfg scans store).1 u.id = some u :=
  runScans_skip_empty_recipient cfg scans store u hN hu
    (recipient_empty_of hd he)

/-- Pending task in both windows but with no recipient anywhere. -/
def taskN : Task := ⟨7, "N", none, 50, "Pending", none, false, false⟩

/-- Witness for C7: under an empty default recipient, the
no-`notify_email` task survives a scan unsent and unflagged. -/
theorem missing_recipient_never_notified_witness :
    (∀ r ∈ (runScans cfg0 [(pAll, 0)] [taskN]).2, r.taskId ≠ taskN.id) ∧
    findTask (runScans cfg0 [(pAll, 0)] [taskN]).1 taskN.id = some taskN :=
  missing_recipient_never_notified cfg0 [(pAll, 0)] [taskN] taskN rfl
    (Or.inl rfl) (by decide) (by decide)

/-- C9: when one kind's due-task query raises, the scan records the
error and treats that kind's batch as empty — that kind sends nothing
and changes no flags — while the other kind's query, sends and staged
flag updates proceed as usual and the scan still completes. -/
theorem query_failure_degrades (cfg : Config)
    (send : String → String → String → Bool) (q c : Bool) (now : Int)
    (store : List Task) :
    ((check_deadlines cfg ⟨false, q, send, c⟩ now store).dayQueryError
        = true ∧
      (∀ r ∈ (check_deadlines cfg ⟨false, q, send, c⟩ now store).sends,
        r.kind = Kind.hour) ∧
      (check_deadlines cfg ⟨false, q, send, c⟩ now store).store.map
        (fun t => t.notified_1day) =
        store.map (fun t => t.notified_1day) ∧
      (check_deadlines cfg ⟨false, q, send, c⟩ now store).sends =
        (if q then hourQuery now store else []).filterMap
          (mkRec cfg send Kind.hour) ∧
      (check_deadlines cfg ⟨false, q, send, c⟩ now store).store =
        (if c then
          store.map (updFun cfg send Kind.hour
            (if q then hourQuery now store else []))
         else store)) ∧
    ((check_deadlines cfg ⟨q, false, send, c⟩ now store).hourQueryError
        = true ∧
      (∀ r ∈ (check_deadlines cfg ⟨q, false, send, c⟩ now store).sends,
        r.kind = Kind.day) ∧
      (check_deadlines cfg ⟨q, false, send, c⟩ now store).store.map
        (fun t => t.notified_1hour) =
        store.map (fun t => t.notified_1hour) ∧
      (check_deadlines cfg ⟨q, false, send, c⟩ now store).sends =
        (if q then dayQuery now store else []).filterMap
          (mkRec cfg send Kind.day) ∧
      (check_deadlines cfg ⟨q, false, send, c⟩ now store).store =
        (if c then
          store.map (updFun cfg send Kind.day
            (if q then dayQuery now store else []))
         else store)) := by
  have hsends1 : (check_deadlines cfg ⟨false, q, send, c⟩ now store).sends =
      (if q then hourQuery now store else []).filterMap
        (mkRec cfg send Kind.hour) := by
    rw [scan_sends]
    rfl
  have hstore1 : (check_deadlines cfg ⟨false, q, send, c⟩ now store).store =
      (if c then
        store.map (updFun cfg send Kind.hour
          (if q then hourQuery now store else []))
       else store) := by
    rcases c with _ | _
    · rfl
    · exact sessionHour_map cfg ⟨false, q, send, true⟩ now store
  have hsends2 : (check_deadlines cfg ⟨q, false, send, c⟩ now store).sends =
      (if q then dayQuery now store else []).filterMap
        (mkRec cfg send Kind.day) := by
    rw [scan_sends]
    exact List.append_nil _
  have hstore2 : (check_deadlines cfg ⟨q, false, send, c⟩ now store).store =
      (if c then
        store.map (updFun cfg send Kind.day
          (if q then dayQuery now store else []))
       else store) := by
    rcases c with _ | _
    · rfl
    · exact sessionDay_map cfg ⟨q, false, send, true⟩ now store
  refine ⟨⟨rfl, ?_, ?_, hsends1, hstore1⟩, ⟨rfl, ?_, ?_, hsends2, hstore2⟩⟩
  · intro r hr
    rw [hsends1] at hr
    rcases List.mem_filterMap.1 hr with ⟨t, _, hmk⟩
    exact (mkRec_some cfg send Kind.hour t r hmk).2.1
  · rw [hstore1]
    rcases c with _ | _
    · rfl
    · rw [if_pos rfl, List.map_map]
      have h : ((fun t : Task => t.notified_1day) ∘
          updFun cfg send Kind.hour (if q then hourQuery now store else []))
          = fun t : Task => t.notified_1day := by
        funext t
        exact updFun_flagOf_ne cfg send Kind.day Kind.hour (by decide) _ t
      rw [h]
  · intro r hr
    rw [hsends2] at hr
    rcases List.mem_filterMap.1 hr with ⟨t, _, hmk⟩
    exact (mkRec_some cfg send Kind.day t r hmk).2.1
  · rw [hstore2]
    rcases c with _ | _
    · rfl
    · rw [if_pos rfl, List.map_map]
      have h : ((fun t : Task => t.notified_1hour) ∘
          updFun cfg send Kind.day (if q then dayQuery now store else []))
          = fun t : Task => t.notified_1hour := by
        funext t
        exact updFun_flagOf_ne cfg send Kind.hour Kind.day (by decide) _ t
      rw [h]

/-- Witness for C9: with the day query failing over a one-task store,
the error is recorded and the single send of the scan is the hour
reminder. -/
theorem query_failure_degrades_witness :
    (check_deadlines cfg0 ⟨false, true, sendAll, true⟩ 0 [taskA]).dayQueryError
      = true ∧
    (⟨1, Kind.hour, "a@x", true⟩ : SendRec).kind = Kind.hour :=
  ⟨(query_failure_degrades cfg0 sendAll true true 0 [taskA]).1.1,
   (query_failure_degrades cfg0 sendAll true true 0 [taskA]).1.2.1
     ⟨1, Kind.hour, "a@x", true⟩ (by decide)⟩

end App
